import Mathlib

/-!
# Verification of the Transaction Pattern Analysis Engine

A shallow embedding of the two core services of the repository
(`services/anomaly_service.py` and `services/payment_service.py`) together
with proofs settling the frozen claims about them.

Modelling conventions, used throughout:

* Python floats are modelled as exact rationals (`ℚ`).  Every comparison and
  every stored numeric field of the engine is either rational or of the form
  `√q` for a rational `q ≥ 0`; quantities of the latter kind (z-scores and
  the confidences derived from them) are represented by their **squares**
  (`…Sq` fields).  Squaring is strictly monotone on nonnegative reals, so
  every comparison, maximum, sort order and tie in the source coincides with
  the corresponding comparison of the squared representatives.
* `scipy.stats.zscore` with zero standard deviation yields `NaN`; every
  comparison against `NaN` in Python is false.  The embedding represents a
  `NaN` z-score as `Option.none` and models the comparisons accordingly.
* Timestamps: `pd.to_datetime` is an external parser; a raw timestamp string
  is abstracted to its parse outcome `Option PdTimestamp` (`none` = a string
  pandas cannot parse, which raises).  `PdTimestamp` carries the absolute
  time in seconds plus the pandas-derived hour-of-day (the only calendar
  field the modelled detectors read).
* Free-text output fields that no computation ever reads back
  (`description`, `recommendation` of findings, the `strftime`-formatted
  date strings, the `z_score`/raw-score field — irrational in general — and
  the stored mode category of a merchant profile) are omitted from the
  embedded records; no claim mentions them.
* `pandas.sort_values` / Python `sorted` are modelled by a stable insertion
  sort.  (Python's `sorted` is stable; `sort_values` ties on equal dates are
  implementation-defined, and no claim depends on them.)
-/

/-! ## Rational helpers -/

/-- Arithmetic mean, `np.mean` / `ndarray.mean()`; `0` on the empty list
(the sources never take a mean of an empty collection). -/
def listMean (l : List ℚ) : ℚ := l.sum / l.length

/-- Population variance (`ddof = 0`), the square of `np.std` and of the
standard deviation used by `scipy.stats.zscore`. -/
def popVar (l : List ℚ) : ℚ := ((l.map (fun a => (a - listMean l) ^ 2)).sum) / l.length

/-- Sample variance (`ddof = 1`), the square of `pandas.Series.std()`. -/
def sampleVar (l : List ℚ) : ℚ :=
  ((l.map (fun a => (a - listMean l) ^ 2)).sum) / ((l.length : ℚ) - 1)

/-- `√v < c` for a variance `v ≥ 0`, expressed on squares:
`√v < c ↔ 0 ≤ c ∧ v < c²`.  Used to embed the source's comparisons of a
standard deviation against a rational bound exactly. -/
def sqrtLtB (v c : ℚ) : Bool := decide (0 ≤ c ∧ v < c ^ 2)

/-- `√v > c` for `v ≥ 0` and a bound `c ≥ 0`, expressed on squares:
`√v > c ↔ v > c²`.  Used to embed the source's comparisons of a z-score
against a nonnegative threshold exactly. -/
def sqrtGtB (v c : ℚ) : Bool := decide (c ^ 2 < v)

/-- Round half to even (Python's `round` on exact values). -/
def roundHalfEven (q : ℚ) : ℤ :=
  let n := ⌊q⌋
  if q - n < 1/2 then n
  else if (1:ℚ)/2 < q - n then n + 1
  else if n % 2 = 0 then n else n + 1

/-- Python `round(q, d)` on exact rational values. -/
def pyRound (q : ℚ) (d : ℕ) : ℚ := (roundHalfEven (q * 10 ^ d) : ℚ) / 10 ^ d

/-- Slope of the least-squares degree-1 fit of `ys` against
`x = 0, 1, …, n-1` — the closed form of `np.polyfit(x, ys, 1)[0]`. -/
def olsSlope (ys : List ℚ) : ℚ :=
  let xs : List ℚ := (List.range ys.length).map (fun i => (i : ℚ))
  let xbar := listMean xs
  let ybar := listMean ys
  let sxy := ((xs.zip ys).map (fun p => (p.1 - xbar) * (p.2 - ybar))).sum
  let sxx := (xs.map (fun x => (x - xbar) ^ 2)).sum
  sxy / sxx

/-! ## Generic list machinery -/

/-- The scan behind `uniqueFirst`: emit each element whose value has not
been seen yet. -/
def uniqueFirstAux {α : Type} [DecidableEq α] : List α → List α → List α
  | [], _ => []
  | a :: l, seen =>
    if a ∈ seen then uniqueFirstAux l seen
    else a :: uniqueFirstAux l (a :: seen)

/-- First-occurrence deduplication: the order `pandas.unique` /
`Series.unique()` returns distinct values in. -/
def uniqueFirst {α : Type} [DecidableEq α] (l : List α) : List α :=
  uniqueFirstAux l []

/-- Error-propagating traversal: the Python `for` loop that builds a list
and lets the first raised exception abort the whole loop. -/
def exMapM {ε α β : Type} (f : α → Except ε β) : List α → Except ε (List β)
  | [] => Except.ok []
  | a :: l =>
    match f a with
    | Except.error e => Except.error e
    | Except.ok b =>
      match exMapM f l with
      | Except.error e => Except.error e
      | Except.ok bs => Except.ok (b :: bs)

/-- One step of a stable insertion sort: `a` walks past exactly the elements
it must come after (`goAfter a b = true`) and is placed in front of the
first element it need not follow, so equal elements keep their original
relative order. -/
def insS {α : Type} (goAfter : α → α → Bool) (a : α) : List α → List α
  | [] => [a]
  | b :: l => if goAfter a b then b :: insS goAfter a l else a :: b :: l

/-- Stable insertion sort with the "must come after" comparator `goAfter`. -/
def sortS {α : Type} (goAfter : α → α → Bool) : List α → List α
  | [] => []
  | a :: l => insS goAfter a (sortS goAfter l)

/-- Stable sort, descending in `key` — Python's
`sorted(key=…, reverse=True)` / `list.sort(key=…, reverse=True)`. -/
def sortDescBy {α : Type} (key : α → ℚ) (l : List α) : List α :=
  sortS (fun a b => decide (key a < key b)) l

/-- Stable sort, ascending in an integer `key` — `DataFrame.sort_values`. -/
def sortAscBy {α : Type} (key : α → ℤ) (l : List α) : List α :=
  sortS (fun a b => decide (key b < key a)) l

/-- Code-point comparison of strings, as Python compares `str` keys. -/
def strLtB (s t : String) : Bool :=
  go s.data t.data
where
  go : List Char → List Char → Bool
    | [], [] => false
    | [], _ :: _ => true
    | _ :: _, [] => false
    | a :: s, b :: t => if a.toNat < b.toNat then true else if b.toNat < a.toNat then false else go s t

/-- Sorted distinct group keys, as `DataFrame.groupby` (with its default
`sort=True`) iterates them. -/
def groupKeys (names : List String) : List String :=
  sortS (fun a b => strLtB b a) (uniqueFirst names)

/-! ## Data model

The record types mirror `models/schemas.py`, which the services import;
that module is not part of the analysed source tree, so the shapes are
modelled from the spec (§3) and from the constructor calls in the services.
Only the fields some embedded computation reads or some claim mentions are
carried (see the module comment). -/

/-- Outcome of `pd.to_datetime` on a raw timestamp: absolute time in
seconds and the pandas-derived hour-of-day. -/
structure PdTimestamp where
  sec : ℤ
  hour : ℕ
  deriving DecidableEq, Repr

/-- Modelled from the spec: input transaction (spec §3, `TransactionData` of
`models/schemas.py`).  `posted_at` is the raw timestamp string abstracted to
its parse outcome; `none` stands for a string `pd.to_datetime` rejects. -/
structure TransactionData where
  id : String
  amount : ℚ
  posted_at : Option PdTimestamp
  category : String
  merchant_name : String
  is_recurring : Bool
  deriving DecidableEq, Repr

/-- The spec's `DataError`: a malformed required field in a transaction. -/
inductive DataError where
  | timestampUnparsable : DataError
  deriving DecidableEq, Repr

/-- `pd.to_datetime` on a raw timestamp: raises on an unparsable string. -/
def pd_to_datetime : Option PdTimestamp → Except DataError PdTimestamp
  | some ts => Except.ok ts
  | none => Except.error DataError.timestampUnparsable

/-- Modelled from the spec: the anomaly kinds of `models/schemas.py`
(spec §3, `AnomalyType`). -/
inductive AnomalyType where
  | unusual_amount : AnomalyType
  | unusual_merchant : AnomalyType
  | unusual_timing : AnomalyType
  | unusual_frequency : AnomalyType
  deriving DecidableEq, Repr

/-- Modelled from the spec: one anomaly finding (spec §3, `AnomalyResponse`
of `models/schemas.py`).  `confidenceSq` is the **square** of the source's
`confidence` (see the module comment); `severity` is the literal string the
source stores. -/
structure AnomalyResponse where
  transaction_id : String
  anomaly_type : AnomalyType
  severity : String
  confidenceSq : ℚ
  expected_value : Option ℚ
  actual_value : ℚ
  deriving DecidableEq, Repr

/-- Modelled from the spec: one rising-payment finding (spec §3,
`RisingPaymentResponse` of `models/schemas.py`).  All numeric fields of this
record are exact rationals in the source semantics. -/
structure RisingPaymentResponse where
  merchant_name : String
  category : String
  current_amount : ℚ
  previous_amount : ℚ
  increase_percentage : ℚ
  increase_amount : ℚ
  frequency : String
  confidence : ℚ
  recommendation : String
  deriving DecidableEq, Repr

/-! ## Anomaly detection service (`services/anomaly_service.py`) -/

namespace AnomalyDetectionService

/-- The normalized working record built by `_prepare_data` (one row of its
DataFrame).  `day_of_week`/`day_of_month` feed only the abstracted outlier
model and are not carried separately. -/
structure Row where
  id : String
  date : ℤ
  amount : ℚ
  category : String
  merchant : String
  is_recurring : Bool
  hour : ℕ
  deriving DecidableEq, Repr

/-- The row `_prepare_data` builds for one transaction; parsing the
timestamp may raise. -/
def rowOfTxn (txn : TransactionData) : Except DataError Row :=
  (pd_to_datetime txn.posted_at).map (fun ts =>
    { id := txn.id, date := ts.sec, amount := |txn.amount|,
      category := txn.category, merchant := txn.merchant_name,
      is_recurring := txn.is_recurring, hour := ts.hour })

/-- `_prepare_data`: parse every timestamp (the first unparsable one
raises), take absolute amounts and derived time features, sort ascending by
date. -/
def prepare_data (transactions : List TransactionData) : Except DataError (List Row) :=
  (exMapM rowOfTxn transactions).map (sortAscBy (fun r => r.date))

/-- `scipy.stats.zscore` squared: `none` models the `NaN`s produced when the
population standard deviation is zero. -/
def zscoreSq (amounts : List ℚ) : List (Option ℚ) :=
  let m := listMean amounts
  let v := popVar amounts
  amounts.map (fun a => if v = 0 then none else some ((a - m) ^ 2 / v))

/-- `_calculate_severity`, on the squared z-score: `z > threshold*2 → high`,
`z > threshold*1.5 → medium`, else `low` (threshold ≥ 0 throughout). -/
def calculate_severity (zSq : ℚ) (threshold : ℚ) : String :=
  if sqrtGtB zSq (threshold * 2) then "high"
  else if sqrtGtB zSq (threshold * (3/2)) then "medium"
  else "low"

/-- The global pass of `_detect_statistical_anomalies`: flag every record
whose absolute z-score exceeds 3.0 (a `NaN` z-score compares false).
`confidence = min(0.95, z/5)`, stored squared. -/
def global_amount_anomalies (df : List Row) : List AnomalyResponse :=
  let amounts := df.map (fun r => r.amount)
  (df.zip (zscoreSq amounts)).filterMap (fun p =>
    match p.2 with
    | none => none
    | some zSq =>
      if sqrtGtB zSq 3 then
        some { transaction_id := p.1.id, anomaly_type := AnomalyType.unusual_amount,
               severity := calculate_severity zSq 3,
               confidenceSq := min ((0.95 : ℚ) ^ 2) (zSq / 5 ^ 2),
               expected_value := some (listMean amounts), actual_value := p.1.amount }
      else none)

/-- The per-category pass of `_detect_statistical_anomalies`: the same
z-score scan within each category (categories in first-seen order, as
`Series.unique()` yields them), threshold 2.5, skipping categories with
fewer than 3 records.  `confidence = min(0.90, z/4)`, stored squared. -/
def category_amount_anomalies (df : List Row) : List AnomalyResponse :=
  (uniqueFirst (df.map (fun r => r.category))).flatMap (fun c =>
    let cdf := df.filter (fun r => decide (r.category = c))
    if cdf.length < 3 then []
    else
      let cam := cdf.map (fun r => r.amount)
      (cdf.zip (zscoreSq cam)).filterMap (fun p =>
        match p.2 with
        | none => none
        | some zSq =>
          if sqrtGtB zSq (5/2) then
            some { transaction_id := p.1.id, anomaly_type := AnomalyType.unusual_amount,
                   severity := calculate_severity zSq (5/2),
                   confidenceSq := min ((0.90 : ℚ) ^ 2) (zSq / 4 ^ 2),
                   expected_value := some (listMean cam), actual_value := p.1.amount }
          else none))

/-- `_detect_statistical_anomalies`: the global pass followed by the
per-category pass, appended to one list. -/
def statistical_anomalies (df : List Row) : List AnomalyResponse :=
  global_amount_anomalies df ++ category_amount_anomalies df

/-- `_detect_ml_anomalies`.  The feature build, `StandardScaler` and
`IsolationForest.fit_predict`/`decision_function` are external library
state (sklearn); they are abstracted as the `model` argument, returning one
`(is_outlier, score)` pair per row.  The guard and the conversion of scores
to findings are the service's own code: outliers get `UNUSUAL_MERCHANT`,
`confidence = min(0.95, |score|*2)` (stored squared), severity from the raw
score. -/
def ml_anomalies (model : List Row → List (Bool × ℚ)) (df : List Row) : List AnomalyResponse :=
  if df.length < 20 then []
  else
    (df.zip (model df)).filterMap (fun p =>
      if p.2.1 then
        some { transaction_id := p.1.id, anomaly_type := AnomalyType.unusual_merchant,
               severity := if p.2.2 < -(3/10) then "high"
                           else if p.2.2 < -(1/10) then "medium" else "low",
               confidenceSq := min ((0.95 : ℚ) ^ 2) ((2 * |p.2.2|) ^ 2),
               expected_value := none, actual_value := p.1.amount }
      else none)

/-- A merchant profile: mean amount, sample variance of amount (the square
of `Series.std()`), count.  The stored mode category is never read and is
omitted. -/
structure MerchantProfile where
  avg_amount : ℚ
  var_amount : ℚ
  transaction_count : ℕ
  deriving DecidableEq, Repr

/-- The statistics stored in one merchant profile: mean amount, sample
variance of amount (square of `Series.std()`), count. -/
def profileOfGroup (g : List Row) : MerchantProfile :=
  { avg_amount := listMean (g.map (fun r => r.amount)),
    var_amount := sampleVar (g.map (fun r => r.amount)),
    transaction_count := g.length }

/-- The profile-building loop of `_detect_merchant_anomalies`: one profile
per distinct raw merchant name with at least 2 records. -/
def merchant_profiles (df : List Row) : List (String × MerchantProfile) :=
  (uniqueFirst (df.map (fun r => r.merchant))).filterMap (fun m =>
    if 2 ≤ (df.filter (fun r => decide (r.merchant = m))).length then
      some (m, profileOfGroup (df.filter (fun r => decide (r.merchant = m))))
    else none)

/-- The checking loop of `_detect_merchant_anomalies`: each record whose
merchant has a profile with positive standard deviation and count ≥ 3 is
flagged when its merchant-local z-score exceeds 2.0.
`confidence = min(0.85, z/3)`, stored squared. -/
def merchant_anomalies (df : List Row) : List AnomalyResponse :=
  let profiles := merchant_profiles df
  df.filterMap (fun r =>
    match profiles.lookup r.merchant with
    | none => none
    | some p =>
      if 0 < p.var_amount then
        let zSq := (r.amount - p.avg_amount) ^ 2 / p.var_amount
        if sqrtGtB zSq 2 ∧ 3 ≤ p.transaction_count then
          some { transaction_id := r.id, anomaly_type := AnomalyType.unusual_amount,
                 severity := calculate_severity zSq 2,
                 confidenceSq := min ((0.85 : ℚ) ^ 2) (zSq / 3 ^ 2),
                 expected_value := some p.avg_amount, actual_value := r.amount }
        else none
      else none)

/-- The off-hours loop of `_detect_temporal_anomalies`: any record with hour
in `[2, 5]` is flagged `UNUSUAL_TIMING`, severity medium, confidence 0.70
(stored squared). -/
def off_hours_anomalies (df : List Row) : List AnomalyResponse :=
  df.filterMap (fun r =>
    if 2 ≤ r.hour ∧ r.hour ≤ 5 then
      some { transaction_id := r.id, anomaly_type := AnomalyType.unusual_timing,
             severity := "medium", confidenceSq := (0.70 : ℚ) ^ 2,
             expected_value := none, actual_value := (r.hour : ℚ) }
    else none)

/-- Largest element of a list of integers (`Series.max()`); the windows it
is applied to are never empty. -/
def listMaxI : List ℤ → ℤ
  | [] => 0
  | a :: t => t.foldl max a

/-- Smallest element of a list of integers (`Series.min()`). -/
def listMinI : List ℤ → ℤ
  | [] => 0
  | a :: t => t.foldl min a

/-- Span of a window in hours:
`(window['date'].max() - window['date'].min()).total_seconds() / 3600`. -/
def windowSpanHours (w : List Row) : ℚ :=
  ((listMaxI (w.map (fun r => r.date)) - listMinI (w.map (fun r => r.date)) : ℤ) : ℚ) / 3600

/-- The `UNUSUAL_FREQUENCY` finding emitted for each record of a qualifying
burst window: severity high, confidence 0.80 (stored squared),
`actual_value = 5`. -/
def mkFreqFinding (r : Row) : AnomalyResponse :=
  { transaction_id := r.id, anomaly_type := AnomalyType.unusual_frequency,
    severity := "high", confidenceSq := (0.80 : ℚ) ^ 2,
    expected_value := none, actual_value := 5 }

/-- The burst loop of `_detect_temporal_anomalies`: slide a window of 5
consecutive time-sorted records; on the first window spanning at most one
hour, flag all 5 records and stop (`break`). -/
def burstScan : List Row → List AnomalyResponse
  | r0 :: r1 :: r2 :: r3 :: r4 :: rest =>
    if windowSpanHours [r0, r1, r2, r3, r4] ≤ 1 then
      [r0, r1, r2, r3, r4].map mkFreqFinding
    else burstScan (r1 :: r2 :: r3 :: r4 :: rest)
  | _ => []

/-- `_detect_temporal_anomalies`: the off-hours loop followed by the burst
loop over the re-sorted records. -/
def temporal_anomalies (df : List Row) : List AnomalyResponse :=
  off_hours_anomalies df ++ burstScan (sortAscBy (fun r => r.date) df)

/-- The concatenated candidate list of the four detector passes, in
evaluation order. -/
def all_anomaly_candidates (model : List Row → List (Bool × ℚ)) (df : List Row) :
    List AnomalyResponse :=
  statistical_anomalies df ++ ml_anomalies model df ++ merchant_anomalies df
    ++ temporal_anomalies df

/-- The scan inside `_deduplicate_anomalies`: keep each transaction id's
first occurrence in the (already confidence-sorted) list. -/
def dedupeScan : List AnomalyResponse → List String → List AnomalyResponse
  | [], _ => []
  | a :: l, seen =>
    if a.transaction_id ∈ seen then dedupeScan l seen
    else a :: dedupeScan l (a.transaction_id :: seen)

/-- `_deduplicate_anomalies`: stable-sort descending by confidence, then
keep the first finding seen for each transaction id. -/
def deduplicate_anomalies (anomalies : List AnomalyResponse) : List AnomalyResponse :=
  dedupeScan (sortDescBy (fun a => a.confidenceSq) anomalies) []

/-- The body of `detect_anomalies` inside its `try`: minimum-size guard,
normalization (which may raise `DataError`), the four detector passes,
deduplication, and the final stable sort descending by confidence. -/
def detect_anomalies_core (model : List Row → List (Bool × ℚ))
    (transactions : List TransactionData) : Except DataError (List AnomalyResponse) :=
  if transactions.length < 10 then Except.ok []
  else
    match prepare_data transactions with
    | Except.error e => Except.error e
    | Except.ok df =>
      Except.ok (sortDescBy (fun a => a.confidenceSq)
        (deduplicate_anomalies (all_anomaly_candidates model df)))

/-- `detect_anomalies`: the `try`-body wrapped in the service's
`except Exception: return []` handler — every internal error is swallowed
and the whole batch yields the empty list. -/
def detect_anomalies (model : List Row → List (Bool × ℚ))
    (transactions : List TransactionData) : Except DataError (List AnomalyResponse) :=
  match detect_anomalies_core model transactions with
  | Except.error _ => Except.ok []
  | Except.ok res => Except.ok res

end AnomalyDetectionService

/-! ## Payment analysis service (`services/payment_service.py`) -/

namespace PaymentAnalysisService

/-- One row of the payment DataFrame built by `_prepare_data` (spending
records only). -/
structure PayRow where
  date : ℤ
  amount : ℚ
  merchant : String
  category : String
  is_recurring : Bool
  deriving DecidableEq, Repr

/-- The row the payment `_prepare_data` builds for one spending
transaction; parsing the timestamp may raise. -/
def payRowOfTxn (txn : TransactionData) : Except DataError PayRow :=
  (pd_to_datetime txn.posted_at).map (fun ts =>
    { date := ts.sec, amount := |txn.amount|, merchant := txn.merchant_name,
      category := txn.category, is_recurring := txn.is_recurring })

/-- `_prepare_data`: keep only spending (`amount < 0`), parse each kept
timestamp (the first unparsable one raises — timestamps of non-spending
transactions are never parsed), take absolute amounts, sort ascending by
date. -/
def prepare_data (transactions : List TransactionData) : Except DataError (List PayRow) :=
  (exMapM payRowOfTxn (transactions.filter (fun txn => decide (txn.amount < 0)))).map
    (sortAscBy (fun r => r.date))

/-- Day gaps between consecutive dates:
`(pd.to_datetime(dates[i]) - pd.to_datetime(dates[i-1])).days` (a
`Timedelta.days` floors, hence `Int.fdiv`). -/
def dayGaps (dates : List ℤ) : List ℤ :=
  (dates.zip dates.tail).map (fun p => (p.2 - p.1).fdiv 86400)

/-- `_is_recurring_pattern`: day-gap statistics classify the group as
recurring when mean gap ∈ [7, 90] with stddev < 0.3·mean, or when at least
70% of the gaps lie in [25, 35] (the monthly-pattern override).  The stddev
comparison is embedded on squares via `sqrtLtB` (gaps of date-sorted rows
are nonnegative, so the variance is the square of a nonnegative stddev). -/
def is_recurring_pattern (group : List PayRow) : Bool :=
  if group.length < 3 then false
  else
    let intervals := dayGaps (group.map (fun r => r.date))
    if intervals.isEmpty then false
    else
      let ints : List ℚ := intervals.map (fun i => (i : ℚ))
      let avg := listMean ints
      let v := popVar ints
      if (7 ≤ avg ∧ avg ≤ 90) ∧ sqrtLtB v (avg * (3/10)) then true
      else
        decide ((intervals.length : ℚ) * (7/10) ≤
          ((intervals.filter (fun i => 25 ≤ i ∧ i ≤ 35)).length : ℚ))

/-- `_determine_frequency`: label the mean day gap. -/
def determine_frequency (group : List PayRow) : String :=
  if group.length < 2 then "unknown"
  else
    let ints : List ℚ := (dayGaps (group.map (fun r => r.date))).map (fun i => (i : ℚ))
    let avg := listMean ints
    if avg ≤ 10 then "weekly"
    else if 25 ≤ avg ∧ avg ≤ 35 then "monthly"
    else if 85 ≤ avg ∧ avg ≤ 95 then "quarterly"
    else if 350 ≤ avg then "yearly"
    else "every_" ++ toString ⌊avg⌋ ++ "_days"

/-- `_has_consistent_intervals`: gap stddev below 20% of the (positive)
mean gap, embedded on squares. -/
def has_consistent_intervals (group : List PayRow) : Bool :=
  if group.length < 3 then false
  else
    let ints : List ℚ := (dayGaps (group.map (fun r => r.date))).map (fun i => (i : ℚ))
    let avg := listMean ints
    if 0 < avg then sqrtLtB (popVar ints) (avg * (1/5)) else false

/-- `_calculate_confidence`: base 0.5 plus capped bonuses for volume, slope,
percentage increase and interval consistency, clamped to [0.3, 0.95]. -/
def calculate_confidence (group : List PayRow) (slope : ℚ)
    (increase_percentage : ℚ) : ℚ :=
  let c0 := (1/2 : ℚ) + min (1/5) ((group.length : ℚ) / 50)
    + min (1/5) (slope / 10) + min (1/5) (increase_percentage / 100)
  let c1 := if has_consistent_intervals group then c0 + 1/10 else c0
  min (19/20) (max (3/10) c1)

/-- `_generate_recommendation`: tier the increase and fill the matching
message template. -/
def generate_recommendation (merchant : String) (increase_percentage : ℚ)
    (frequency : String) : String :=
  if 50 < increase_percentage then
    "Review your " ++ frequency ++ " payment to " ++ merchant ++
      " - it has increased significantly. Consider contacting them about the price change or looking for alternatives."
  else if 20 < increase_percentage then
    "Your " ++ frequency ++ " payment to " ++ merchant ++
      " has increased notably. You may want to review your subscription or service plan."
  else
    "Your " ++ frequency ++ " payment to " ++ merchant ++
      " has increased moderately. This could be due to plan changes or price adjustments."

/-- `_analyze_merchant_payments`: sort the group by date, require a
recurring pattern, fit the OLS slope (discard if ≤ 0.5), compute the
first-to-last increase percentage (0 when the first amount is not positive,
guarding the division), discard below 5%, and build the finding. -/
def analyze_merchant_payments (merchant : String) (group0 : List PayRow) :
    Option RisingPaymentResponse :=
  let group := sortAscBy (fun r => r.date) group0
  if ¬ is_recurring_pattern group then none
  else
    let amounts := group.map (fun r => r.amount)
    if amounts.length < 3 then none
    else
      let slope := olsSlope amounts
      if slope ≤ 1/2 then none
      else
        let recent_amount := amounts.getLast?.getD 0
        let older_amount := amounts.head?.getD 0
        let increase_amount := recent_amount - older_amount
        let increase_percentage :=
          if 0 < older_amount then increase_amount / older_amount * 100 else 0
        if increase_percentage < 5 then none
        else some
          { merchant_name := merchant,
            category := (group.map (fun r => r.category)).getLast?.getD "",
            current_amount := pyRound recent_amount 2,
            previous_amount := pyRound older_amount 2,
            increase_percentage := pyRound increase_percentage 1,
            increase_amount := pyRound increase_amount 2,
            frequency := determine_frequency group,
            confidence := calculate_confidence group slope increase_percentage,
            recommendation := generate_recommendation merchant increase_percentage
              (determine_frequency group) }

/-- The body of `detect_rising_payments` inside its `try`: minimum-size
guard, spending-only normalization (which may raise `DataError`), per-
merchant analysis over the groupby (keys in sorted order, rows in frame
order), sort descending by increase percentage, truncate to 10. -/
def detect_rising_payments_core (transactions : List TransactionData) :
    Except DataError (List RisingPaymentResponse) :=
  if transactions.length < 10 then Except.ok []
  else
    match prepare_data transactions with
    | Except.error e => Except.error e
    | Except.ok df =>
      let rising := (groupKeys (df.map (fun r => r.merchant))).filterMap (fun m =>
        let group := df.filter (fun r => decide (r.merchant = m))
        if group.length < 3 then none
        else analyze_merchant_payments m group)
      Except.ok ((sortDescBy (fun x => x.increase_percentage) rising).take 10)

/-- `detect_rising_payments`: the `try`-body wrapped in the service's
`except Exception: return []` handler. -/
def detect_rising_payments (transactions : List TransactionData) :
    Except DataError (List RisingPaymentResponse) :=
  match detect_rising_payments_core transactions with
  | Except.error _ => Except.ok []
  | Except.ok res => Except.ok res

end PaymentAnalysisService

/-- Modelled from the spec: the lowercase-trimmed canonical merchant name
(spec §3 claims `MerchantProfile` is "keyed by lowercase-trimmed merchant
name"; the source has no such canonicalization, so it is defined here from
the spec's words, for comparison against the source behaviour).  ASCII
lowercasing plus trimming of surrounding spaces, on the character list. -/
def canonMerchantName (s : String) : String :=
  let lower := s.data.map (fun c =>
    if 65 ≤ c.toNat ∧ c.toNat ≤ 90 then Char.ofNat (c.toNat + 32) else c)
  String.mk ((lower.dropWhile (fun c => c = ' ')).reverse.dropWhile
    (fun c => c = ' ')).reverse

/-! ## Properties of the stable sort -/

theorem insS_perm {α : Type} (goAfter : α → α → Bool) (a : α) (l : List α) :
    List.Perm (insS goAfter a l) (a :: l) := by
  induction l with
  | nil => rfl
  | cons b l ih =>
    rw [insS]
    by_cases h : goAfter a b = true
    · rw [if_pos h]
      exact (ih.cons b).trans (List.Perm.swap a b l)
    · rw [if_neg h]

theorem sortS_perm {α : Type} (goAfter : α → α → Bool) (l : List α) :
    List.Perm (sortS goAfter l) l := by
  induction l with
  | nil => rfl
  | cons a l ih => exact (insS_perm goAfter a (sortS goAfter l)).trans (ih.cons a)

theorem mem_insS {α : Type} {goAfter : α → α → Bool} {a x : α} {l : List α} :
    x ∈ insS goAfter a l ↔ x = a ∨ x ∈ l := by
  rw [(insS_perm goAfter a l).mem_iff, List.mem_cons]

/-- The sort output is `Pairwise` in "does not have to go after": with the
comparator `goAfter x y = (key x < key y)` this is exactly descending order
in `key`. -/
theorem sortS_pairwise {α : Type} (goAfter : α → α → Bool)
    (hasymm : ∀ x y, goAfter x y = true → goAfter y x = false)
    (htrans : ∀ x y z, goAfter x y = false → goAfter y z = false → goAfter x z = false)
    (l : List α) :
    (sortS goAfter l).Pairwise (fun x y => goAfter x y = false) := by
  have hins : ∀ (a : α) (m : List α),
      m.Pairwise (fun x y => goAfter x y = false) →
      (insS goAfter a m).Pairwise (fun x y => goAfter x y = false) := by
    intro a m
    induction m with
    | nil => intro; simp [insS]
    | cons b m ih =>
      intro hm
      rcases List.pairwise_cons.mp hm with ⟨hb, hm2⟩
      rw [insS]
      by_cases h : goAfter a b = true
      · rw [if_pos h]
        refine List.pairwise_cons.mpr ⟨?_, ih hm2⟩
        intro x hx
        rcases mem_insS.mp hx with rfl | hx
        · exact hasymm x b h
        · exact hb x hx
      · rw [if_neg h]
        refine List.pairwise_cons.mpr ⟨?_, hm⟩
        intro x hx
        rcases List.mem_cons.mp hx with rfl | hx
        · exact Bool.eq_false_iff.mpr h
        · exact htrans a b x (Bool.eq_false_iff.mpr h) (hb x hx)
  induction l with
  | nil => exact List.Pairwise.nil
  | cons a l ih => exact hins a (sortS goAfter l) ih

theorem insS_filter_pos {α : Type} (goAfter : α → α → Bool) (p : α → Bool) (a : α)
    (hpa : p a = true) (hp : ∀ x, p x = true → goAfter a x = false) (l : List α) :
    (insS goAfter a l).filter p = a :: l.filter p := by
  induction l with
  | nil => simp [insS, hpa]
  | cons b l ih =>
    rw [insS]
    by_cases h : goAfter a b = true
    · rw [if_pos h]
      have hpb : p b = false := by
        cases hpb : p b with
        | false => rfl
        | true => rw [hp b hpb] at h; cases h
      rw [List.filter_cons_of_neg (by simp [hpb]), ih, List.filter_cons_of_neg (by simp [hpb])]
    · rw [if_neg h, List.filter_cons_of_pos (by simp [hpa])]

theorem insS_filter_neg {α : Type} (goAfter : α → α → Bool) (p : α → Bool) (a : α)
    (hpa : p a = false) (l : List α) :
    (insS goAfter a l).filter p = l.filter p := by
  induction l with
  | nil => simp [insS, hpa]
  | cons b l ih =>
    rw [insS]
    by_cases h : goAfter a b = true
    · rw [if_pos h]
      cases hpb : p b with
      | false =>
        rw [List.filter_cons_of_neg (by simp [hpb]), ih, List.filter_cons_of_neg (by simp [hpb])]
      | true =>
        rw [List.filter_cons_of_pos (by simp [hpb]), ih, List.filter_cons_of_pos (by simp [hpb])]
    · rw [if_neg h, List.filter_cons_of_neg (by simp [hpa])]

/-- Stability of the sort, phrased on filters: a predicate whose satisfying
elements never have to go after one another (e.g. "has this exact key
value") selects the same elements in the same order before and after
sorting. -/
theorem sortS_filter_eq {α : Type} (goAfter : α → α → Bool) (p : α → Bool)
    (hp : ∀ x y, p x = true → p y = true → goAfter x y = false) (l : List α) :
    (sortS goAfter l).filter p = l.filter p := by
  induction l with
  | nil => rfl
  | cons a l ih =>
    rw [sortS]
    cases hpa : p a with
    | true =>
      rw [insS_filter_pos goAfter p a hpa (fun x hx => hp a x hpa hx), ih,
        List.filter_cons_of_pos (by simp [hpa])]
    | false =>
      rw [insS_filter_neg goAfter p a hpa, ih, List.filter_cons_of_neg (by simp [hpa])]

/-- `sortDescBy` output is non-increasing in the key. -/
theorem sortDescBy_pairwise {α : Type} (key : α → ℚ) (l : List α) :
    (sortDescBy key l).Pairwise (fun a b => key b ≤ key a) := by
  have h := sortS_pairwise (fun a b => decide (key a < key b))
    (by intro x y h; simp only [decide_eq_true_eq] at h; simpa using le_of_lt h)
    (by
      intro x y z hxy hyz
      simp only [decide_eq_false_iff_not, not_lt] at hxy hyz ⊢
      exact hyz.trans hxy) l
  refine h.imp ?_
  intro a b hab
  simpa [not_lt] using hab

theorem sortDescBy_perm {α : Type} (key : α → ℚ) (l : List α) :
    List.Perm (sortDescBy key l) l :=
  sortS_perm _ l

/-! ## Properties of deduplication -/

namespace AnomalyDetectionService

/-- Membership in the dedup scan, characterized: `f` survives exactly when
its id is not already seen and `f` is the **first** entry with its id. -/
theorem dedupeScan_mem (f : AnomalyResponse) (s : List AnomalyResponse) :
    ∀ seen : List String,
      f ∈ dedupeScan s seen ↔
        f.transaction_id ∉ seen ∧
          (s.filter (fun g => decide (g.transaction_id = f.transaction_id))).head? = some f := by
  induction s with
  | nil => intro seen; simp [dedupeScan]
  | cons a s ih =>
    intro seen
    by_cases hid : a.transaction_id = f.transaction_id
    · by_cases hseen : a.transaction_id ∈ seen
      · rw [dedupeScan, if_pos hseen, ih seen]
        have hfseen : f.transaction_id ∈ seen := hid ▸ hseen
        simp [hfseen]
      · rw [dedupeScan, if_neg hseen]
        have hfseen : f.transaction_id ∉ seen := hid ▸ hseen
        constructor
        · intro hf
          rcases List.mem_cons.mp hf with rfl | hf
          · exact ⟨hfseen, by rw [List.filter_cons_of_pos (by simp)]; rfl⟩
          · have h2 := (ih (a.transaction_id :: seen)).mp hf
            exact absurd (hid ▸ List.mem_cons_self a.transaction_id seen) h2.1
        · rintro ⟨-, hhead⟩
          rw [List.filter_cons_of_pos (by simp [hid]), List.head?_cons,
            Option.some_inj] at hhead
          exact hhead ▸ List.mem_cons_self a _
    · have hfilter :
        (a :: s).filter (fun g => decide (g.transaction_id = f.transaction_id))
          = s.filter (fun g => decide (g.transaction_id = f.transaction_id)) :=
        List.filter_cons_of_neg (by simp [hid])
      by_cases hseen : a.transaction_id ∈ seen
      · rw [dedupeScan, if_pos hseen, ih seen, hfilter]
      · rw [dedupeScan, if_neg hseen, hfilter]
        constructor
        · intro hf
          rcases List.mem_cons.mp hf with rfl | hf
          · exact absurd rfl hid
          · have h2 := (ih (a.transaction_id :: seen)).mp hf
            exact ⟨fun hmem => h2.1 (List.mem_cons_of_mem _ hmem), h2.2⟩
        · rintro ⟨hnot, hhead⟩
          refine List.mem_cons_of_mem a ((ih (a.transaction_id :: seen)).mpr ⟨?_, hhead⟩)
          intro hmem
          rcases List.mem_cons.mp hmem with h | h
          · exact hid h.symm
          · exact hnot h

/-- The dedup scan never keeps two findings with the same transaction id. -/
theorem dedupeScan_pairwise (s : List AnomalyResponse) :
    ∀ seen : List String,
      (dedupeScan s seen).Pairwise
        (fun a b => a.transaction_id ≠ b.transaction_id) := by
  induction s with
  | nil => intro seen; simp [dedupeScan]
  | cons a s ih =>
    intro seen
    by_cases hseen : a.transaction_id ∈ seen
    · rw [dedupeScan, if_pos hseen]; exact ih seen
    · rw [dedupeScan, if_neg hseen]
      refine List.pairwise_cons.mpr ⟨?_, ih _⟩
      intro g hg heq
      have h2 := (dedupeScan_mem g s (a.transaction_id :: seen)).mp hg
      exact h2.1 (heq ▸ List.mem_cons_self _ _)

/-- Every id occurring among the candidates still occurs after dedup. -/
theorem dedupeScan_covers (g : AnomalyResponse) (s : List AnomalyResponse) (hg : g ∈ s) :
    ∃ f ∈ dedupeScan s [], f.transaction_id = g.transaction_id := by
  rcases hfl : s.filter (fun x => decide (x.transaction_id = g.transaction_id)) with _ | ⟨f, t⟩
  · exfalso
    have : g ∈ s.filter (fun x => decide (x.transaction_id = g.transaction_id)) :=
      List.mem_filter.mpr ⟨hg, by simp⟩
    rw [hfl] at this
    cases this
  · have hf : f ∈ s.filter (fun x => decide (x.transaction_id = g.transaction_id)) := by
      rw [hfl]; exact List.mem_cons_self f t
    have hfid : f.transaction_id = g.transaction_id := by
      simpa using (List.mem_filter.mp hf).2
    have hpred : s.filter (fun x => decide (x.transaction_id = f.transaction_id))
        = s.filter (fun x => decide (x.transaction_id = g.transaction_id)) :=
      List.filter_congr (fun a _ => by rw [hfid])
    exact ⟨f, (dedupeScan_mem f s []).mpr ⟨by simp, by rw [hpred, hfl]; rfl⟩, hfid⟩

end AnomalyDetectionService

/-! ## Properties of the burst scan -/

namespace AnomalyDetectionService

/-- Window `i` of the sliding scan: the 5 consecutive records starting at
position `i`. -/
def burstWindow (l : List Row) (i : ℕ) : List Row := (l.drop i).take 5

/-- Window `i` exists and qualifies: its time span is at most one hour. -/
def burstAt (l : List Row) (i : ℕ) : Bool :=
  decide (i + 5 ≤ l.length ∧ windowSpanHours (burstWindow l i) ≤ 1)

theorem burstAt_cons (a : Row) (t : List Row) (i : ℕ) :
    burstAt (a :: t) (i + 1) = burstAt t i := by
  rw [burstAt, burstAt, decide_eq_decide]
  have hw : burstWindow (a :: t) (i + 1) = burstWindow t i := rfl
  rw [hw, List.length_cons]
  constructor
  · rintro ⟨h1, h2⟩; exact ⟨by omega, h2⟩
  · rintro ⟨h1, h2⟩; exact ⟨by omega, h2⟩

theorem exists_five_cons {α : Type} : ∀ (l : List α), 5 ≤ l.length →
    ∃ a b c d e t, l = a :: b :: c :: d :: e :: t := by
  intro l h
  match l, h with
  | a :: b :: c :: d :: e :: t, _ => exact ⟨a, b, c, d, e, t, rfl⟩
  | [], h => simp at h
  | [a], h => simp at h
  | [a, b], h => simp at h
  | [a, b, c], h => simp at h
  | [a, b, c, d], h => simp at h

/-- The burst scan reports exactly the records of the first qualifying
window and then stops. -/
theorem burstScan_first :
    ∀ (i : ℕ) (l : List Row), burstAt l i = true → (∀ j, j < i → burstAt l j = false) →
      burstScan l = (burstWindow l i).map mkFreqFinding := by
  intro i
  induction i with
  | zero =>
    intro l h1 h0
    obtain ⟨r0, r1, r2, r3, r4, rest, rfl⟩ :=
      exists_five_cons l (by have := (of_decide_eq_true h1).1; omega)
    have hp := of_decide_eq_true h1
    have hs : windowSpanHours [r0, r1, r2, r3, r4] ≤ 1 := hp.2
    simp only [burstScan, if_pos hs]
    rfl
  | succ i ih =>
    intro l h1 h0
    obtain ⟨r0, r1, r2, r3, r4, rest, rfl⟩ :=
      exists_five_cons l (by have := (of_decide_eq_true h1).1; omega)
    have hb0 : burstAt (r0 :: r1 :: r2 :: r3 :: r4 :: rest) 0 = false :=
      h0 0 (Nat.succ_pos i)
    have hs : ¬ windowSpanHours [r0, r1, r2, r3, r4] ≤ 1 := by
      intro hle
      have : burstAt (r0 :: r1 :: r2 :: r3 :: r4 :: rest) 0 = true := by
        rw [burstAt]
        refine decide_eq_true ⟨?_, hle⟩
        simp
      rw [this] at hb0
      cases hb0
    simp only [burstScan, if_neg hs]
    have h1t : burstAt (r1 :: r2 :: r3 :: r4 :: rest) i = true := by
      rw [← burstAt_cons r0]; exact h1
    have h0t : ∀ j, j < i → burstAt (r1 :: r2 :: r3 :: r4 :: rest) j = false := by
      intro j hj
      rw [← burstAt_cons r0]
      exact h0 (j + 1) (by omega)
    rw [ih (r1 :: r2 :: r3 :: r4 :: rest) h1t h0t]
    rfl

/-- Every finding of the burst loop is an `UNUSUAL_FREQUENCY` finding for
a record of the reported window. -/
theorem burstScan_anomaly_type (l : List Row) :
    ∀ f ∈ burstScan l, f.anomaly_type = AnomalyType.unusual_frequency := by
  induction l using burstScan.induct with
  | case1 r0 r1 r2 r3 r4 rest hspan =>
    rw [burstScan, if_pos hspan]
    intro f hf
    rcases List.mem_map.mp hf with ⟨r, -, rfl⟩
    rfl
  | case2 r0 r1 r2 r3 r4 rest hspan ih =>
    rw [burstScan, if_neg hspan]
    exact ih
  | case3 l h =>
    rw [burstScan]
    · intro f hf; cases hf
    · exact h

theorem off_hours_anomaly_type (df : List Row) :
    ∀ f ∈ off_hours_anomalies df, f.anomaly_type = AnomalyType.unusual_timing := by
  intro f hf
  rcases List.mem_filterMap.mp hf with ⟨r, -, hr⟩
  by_cases h : 2 ≤ r.hour ∧ r.hour ≤ 5
  · rw [if_pos h] at hr
    cases hr
    rfl
  · rw [if_neg h] at hr
    cases hr

/-- The `UNUSUAL_FREQUENCY` findings of the temporal pass are exactly the
burst-loop findings. -/
theorem temporal_filter_freq (df : List Row) :
    (temporal_anomalies df).filter
        (fun f => decide (f.anomaly_type = AnomalyType.unusual_frequency))
      = burstScan (sortAscBy (fun r => r.date) df) := by
  rw [temporal_anomalies, List.filter_append]
  have h1 : (off_hours_anomalies df).filter
      (fun f => decide (f.anomaly_type = AnomalyType.unusual_frequency)) = [] := by
    rw [List.filter_eq_nil_iff]
    intro f hf
    have := off_hours_anomaly_type df f hf
    simp [this]
  have h2 : (burstScan (sortAscBy (fun r => r.date) df)).filter
      (fun f => decide (f.anomaly_type = AnomalyType.unusual_frequency))
      = burstScan (sortAscBy (fun r => r.date) df) := by
    rw [List.filter_eq_self]
    intro f hf
    simp [burstScan_anomaly_type _ f hf]
  rw [h1, h2, List.nil_append]

end AnomalyDetectionService

/-! ## Error propagation through normalization -/

theorem exMapM_error_of_mem {ε α β : Type} (f : α → Except ε β) (l : List α) (a : α)
    (ha : a ∈ l) (e : ε) (hae : f a = Except.error e) :
    ∃ e2, exMapM f l = Except.error e2 := by
  induction l with
  | nil => cases ha
  | cons b l ih =>
    rw [exMapM]
    cases hb : f b with
    | error e2 => exact ⟨e2, rfl⟩
    | ok v =>
      rcases List.mem_cons.mp ha with rfl | h
      · rw [hb] at hae; cases hae
      · obtain ⟨e2, he2⟩ := ih h
        rw [he2]
        exact ⟨e2, rfl⟩

theorem anomaly_prepare_data_error (txs : List TransactionData)
    (t : TransactionData) (ht : t ∈ txs) (hbad : t.posted_at = none) :
    ∃ e, AnomalyDetectionService.prepare_data txs = Except.error e := by
  obtain ⟨e2, he2⟩ := exMapM_error_of_mem AnomalyDetectionService.rowOfTxn
    txs t ht DataError.timestampUnparsable
    (by rw [AnomalyDetectionService.rowOfTxn, hbad]; rfl)
  refine ⟨e2, ?_⟩
  rw [AnomalyDetectionService.prepare_data, he2]
  rfl

theorem payment_prepare_data_error (txs : List TransactionData)
    (t : TransactionData) (ht : t ∈ txs) (hneg : t.amount < 0) (hbad : t.posted_at = none) :
    ∃ e, PaymentAnalysisService.prepare_data txs = Except.error e := by
  have hmem : t ∈ txs.filter (fun txn => decide (txn.amount < 0)) :=
    List.mem_filter.mpr ⟨ht, by simpa using hneg⟩
  obtain ⟨e2, he2⟩ := exMapM_error_of_mem PaymentAnalysisService.payRowOfTxn
    (txs.filter (fun txn => decide (txn.amount < 0))) t hmem
    DataError.timestampUnparsable
    (by rw [PaymentAnalysisService.payRowOfTxn, hbad]; rfl)
  refine ⟨e2, ?_⟩
  rw [PaymentAnalysisService.prepare_data, he2]
  rfl


/-! ## Behaviour of the exception handlers -/

open AnomalyDetectionService in
theorem detect_anomalies_small (model : List AnomalyDetectionService.Row → List (Bool × ℚ))
    (txs : List TransactionData) (h : txs.length < 10) :
    detect_anomalies model txs = Except.ok [] := by
  rw [detect_anomalies, detect_anomalies_core, if_pos h]

open PaymentAnalysisService in
theorem detect_rising_payments_small (txs : List TransactionData) (h : txs.length < 10) :
    detect_rising_payments txs = Except.ok [] := by
  rw [detect_rising_payments, detect_rising_payments_core, if_pos h]

open AnomalyDetectionService in
theorem detect_anomalies_swallows (model : List AnomalyDetectionService.Row → List (Bool × ℚ))
    (txs : List TransactionData) (e : DataError)
    (h : detect_anomalies_core model txs = Except.error e) :
    detect_anomalies model txs = Except.ok [] := by
  rw [detect_anomalies, h]

open PaymentAnalysisService in
theorem detect_rising_payments_swallows (txs : List TransactionData) (e : DataError)
    (h : detect_rising_payments_core txs = Except.error e) :
    detect_rising_payments txs = Except.ok [] := by
  rw [detect_rising_payments, h]

/-! ## Claim theorems: error handling (C1, C2, C10) -/

open AnomalyDetectionService PaymentAnalysisService in
/-- **C10.** For every input — malformed timestamps included — both
`detect_anomalies` and `detect_rising_payments` return normally (an `ok`
value, never a propagated error), and whenever the `try`-body raises, the
`except` handler turns the result into the empty sequence. -/
theorem C10_never_propagates (model : List Row → List (Bool × ℚ))
    (txs : List TransactionData) :
    (∃ l, detect_anomalies model txs = Except.ok l) ∧
    (∃ l, detect_rising_payments txs = Except.ok l) ∧
    (∀ e, detect_anomalies_core model txs = Except.error e →
      detect_anomalies model txs = Except.ok []) ∧
    (∀ e, detect_rising_payments_core txs = Except.error e →
      detect_rising_payments txs = Except.ok []) := by
  refine ⟨?_, ?_, ?_, ?_⟩
  · cases h : detect_anomalies_core model txs with
    | error e => exact ⟨[], by rw [detect_anomalies, h]⟩
    | ok l => exact ⟨l, by rw [detect_anomalies, h]⟩
  · cases h : detect_rising_payments_core txs with
    | error e => exact ⟨[], by rw [detect_rising_payments, h]⟩
    | ok l => exact ⟨l, by rw [detect_rising_payments, h]⟩
  · intro e he
    exact detect_anomalies_swallows model txs e he
  · intro e he
    exact detect_rising_payments_swallows txs e he

/-- Witness for C10 at a concrete input. -/
theorem C10_never_propagates_witness :
    ∃ l, AnomalyDetectionService.detect_anomalies (fun _ => []) [] = Except.ok l :=
  (C10_never_propagates (fun _ => []) []).1

open AnomalyDetectionService PaymentAnalysisService in
/-- **C2.** For fewer than 10 input records both detectors return the empty
sequence, without raising (the guard precedes even timestamp parsing). -/
theorem C2_minimum_size (model : List Row → List (Bool × ℚ))
    (txs : List TransactionData) (h : txs.length < 10) :
    detect_anomalies model txs = Except.ok [] ∧
    detect_rising_payments txs = Except.ok [] := by
  exact ⟨detect_anomalies_small model txs h, detect_rising_payments_small txs h⟩

/-- Witness for C2: a 3-record batch — containing even an unparsable
timestamp — yields `ok []` from both detectors. -/
theorem C2_minimum_size_witness :
    ([⟨"a", -5, some ⟨0, 10⟩, "c", "m", false⟩,
      ⟨"b", -6, none, "c", "m", false⟩,
      ⟨"c", -7, some ⟨86400, 10⟩, "c", "m", false⟩] : List TransactionData).length < 10 ∧
    AnomalyDetectionService.detect_anomalies (fun _ => [])
      [⟨"a", -5, some ⟨0, 10⟩, "c", "m", false⟩,
       ⟨"b", -6, none, "c", "m", false⟩,
       ⟨"c", -7, some ⟨86400, 10⟩, "c", "m", false⟩] = Except.ok [] ∧
    PaymentAnalysisService.detect_rising_payments
      [⟨"a", -5, some ⟨0, 10⟩, "c", "m", false⟩,
       ⟨"b", -6, none, "c", "m", false⟩,
       ⟨"c", -7, some ⟨86400, 10⟩, "c", "m", false⟩] = Except.ok [] :=
  ⟨by decide,
   (C2_minimum_size (fun _ => []) _ (by decide)).1,
   (C2_minimum_size (fun _ => []) _ (by decide)).2⟩

/-! ## Concrete inputs used by witnesses and counterexamples -/

/-- A trivial outlier model (no record flagged); concrete batches below
stay under the 20-record minimum of the outlier pass anyway. -/
def noModel : List AnomalyDetectionService.Row → List (Bool × ℚ) := fun _ => []

/-- `Except` result is an `ok` value. -/
def isOkE {ε α : Type} : Except ε α → Bool
  | Except.ok _ => true
  | Except.error _ => false

deriving instance DecidableEq for Except

/-- A 10-record spending batch whose record `x5` has an unparsable
timestamp. -/
def badBatch : List TransactionData :=
  [⟨"x0", -50, some ⟨0, 10⟩, "c", "m0", false⟩,
   ⟨"x1", -50, some ⟨86400, 10⟩, "c", "m1", false⟩,
   ⟨"x2", -50, some ⟨172800, 10⟩, "c", "m2", false⟩,
   ⟨"x3", -50, some ⟨259200, 10⟩, "c", "m3", false⟩,
   ⟨"x4", -50, some ⟨345600, 10⟩, "c", "m4", false⟩,
   ⟨"x5", -50, none, "c", "m5", false⟩,
   ⟨"x6", -50, some ⟨518400, 10⟩, "c", "m6", false⟩,
   ⟨"x7", -50, some ⟨604800, 10⟩, "c", "m7", false⟩,
   ⟨"x8", -50, some ⟨691200, 10⟩, "c", "m8", false⟩,
   ⟨"x9", -50, some ⟨777600, 10⟩, "c", "m9", false⟩]

/-! ## Claim C1: what actually happens on an unparsable timestamp -/

open AnomalyDetectionService PaymentAnalysisService in
/-- **C1, counterexample.**  On a 10-record batch containing an unparsable
timestamp, the normalization inside the `try`-body does raise `DataError` —
but both public entry points catch it and return `ok []`: the error is
**not** propagated to the caller, contradicting the claim. -/
theorem C1_counterexample :
    (∃ t ∈ badBatch, t.posted_at = none) ∧
    10 ≤ badBatch.length ∧
    detect_anomalies_core noModel badBatch = Except.error DataError.timestampUnparsable ∧
    detect_anomalies noModel badBatch = Except.ok [] ∧
    isOkE (detect_anomalies noModel badBatch) = true ∧
    detect_rising_payments_core badBatch = Except.error DataError.timestampUnparsable ∧
    detect_rising_payments badBatch = Except.ok [] ∧
    isOkE (detect_rising_payments badBatch) = true := by
  decide

open AnomalyDetectionService PaymentAnalysisService in
/-- **C1, amended.**  For every batch containing a transaction with an
unparsable timestamp, `detect_anomalies` returns `ok []` — the internal
`DataError` (raised when the batch reaches normalization at all, i.e. at
size ≥ 10) is caught by the `except` handler and the whole batch yields the
empty sequence instead of a propagated error.  `detect_rising_payments`
behaves the same way when the malformed transaction is a spending
transaction (`amount < 0`); timestamps of non-spending transactions are
never parsed there. -/
theorem C1_amended_error_swallowed (model : List Row → List (Bool × ℚ))
    (txs txs2 : List TransactionData)
    (h1 : ∃ t ∈ txs, t.posted_at = none)
    (h2 : ∃ t ∈ txs2, t.amount < 0 ∧ t.posted_at = none) :
    detect_anomalies model txs = Except.ok [] ∧
    detect_rising_payments txs2 = Except.ok [] := by
  obtain ⟨t, ht, hbad⟩ := h1
  obtain ⟨t2, ht2, hneg2, hbad2⟩ := h2
  constructor
  · by_cases hlen : txs.length < 10
    · exact detect_anomalies_small model txs hlen
    · obtain ⟨e, he⟩ := anomaly_prepare_data_error txs t ht hbad
      have hcore : detect_anomalies_core model txs = Except.error e := by
        rw [detect_anomalies_core, if_neg hlen, he]
      exact detect_anomalies_swallows model txs e hcore
  · by_cases hlen : txs2.length < 10
    · exact detect_rising_payments_small txs2 hlen
    · obtain ⟨e, he⟩ := payment_prepare_data_error txs2 t2 ht2 hneg2 hbad2
      have hcore : detect_rising_payments_core txs2 = Except.error e := by
        rw [detect_rising_payments_core, if_neg hlen, he]
      exact detect_rising_payments_swallows txs2 e hcore

/-- Witness for the amended C1 at the concrete bad batch. -/
theorem C1_amended_error_swallowed_witness :
    (∃ t ∈ badBatch, t.posted_at = none) ∧
    (∃ t ∈ badBatch, t.amount < 0 ∧ t.posted_at = none) ∧
    (AnomalyDetectionService.detect_anomalies noModel badBatch = Except.ok [] ∧
      PaymentAnalysisService.detect_rising_payments badBatch = Except.ok []) :=
  ⟨by decide, by decide,
    C1_amended_error_swallowed noModel badBatch badBatch (by decide) (by decide)⟩

/-- A 10-record batch with two off-hours transactions (so the anomaly
output is non-empty) and all amounts equal. -/
def wBatch : List TransactionData :=
  [⟨"w0", -50, some ⟨0, 3⟩, "c", "m0", false⟩,
   ⟨"w1", -50, some ⟨86400, 4⟩, "c", "m1", false⟩,
   ⟨"w2", -50, some ⟨172800, 10⟩, "c", "m2", false⟩,
   ⟨"w3", -50, some ⟨259200, 10⟩, "c", "m3", false⟩,
   ⟨"w4", -50, some ⟨345600, 10⟩, "c", "m4", false⟩,
   ⟨"w5", -50, some ⟨432000, 10⟩, "c", "m5", false⟩,
   ⟨"w6", -50, some ⟨518400, 10⟩, "c", "m6", false⟩,
   ⟨"w7", -50, some ⟨604800, 10⟩, "c", "m7", false⟩,
   ⟨"w8", -50, some ⟨691200, 10⟩, "c", "m8", false⟩,
   ⟨"w9", -50, some ⟨777600, 10⟩, "c", "m9", false⟩]

/-- The anomaly output on `wBatch`: the two off-hours findings, in stable
order. -/
def wOut : List AnomalyResponse :=
  [⟨"w0", AnomalyType.unusual_timing, "medium", 49/100, none, 3⟩,
   ⟨"w1", AnomalyType.unusual_timing, "medium", 49/100, none, 4⟩]

/-- The spec §8 rising-payment scenario, padded to the 10-record minimum
with non-spending records: `StreamCo` charged exactly 9.99 monthly (30-day
gaps) six times, then 19.99. -/
def risingBatch : List TransactionData :=
  [⟨"s0", -(999/100), some ⟨0, 12⟩, "subscriptions", "StreamCo", true⟩,
   ⟨"s1", -(999/100), some ⟨2592000, 12⟩, "subscriptions", "StreamCo", true⟩,
   ⟨"s2", -(999/100), some ⟨5184000, 12⟩, "subscriptions", "StreamCo", true⟩,
   ⟨"s3", -(999/100), some ⟨7776000, 12⟩, "subscriptions", "StreamCo", true⟩,
   ⟨"s4", -(999/100), some ⟨10368000, 12⟩, "subscriptions", "StreamCo", true⟩,
   ⟨"s5", -(999/100), some ⟨12960000, 12⟩, "subscriptions", "StreamCo", true⟩,
   ⟨"s6", -(1999/100), some ⟨15552000, 12⟩, "subscriptions", "StreamCo", true⟩,
   ⟨"i0", 100, some ⟨0, 12⟩, "income", "Employer", false⟩,
   ⟨"i1", 100, some ⟨2592000, 12⟩, "income", "Employer", false⟩,
   ⟨"i2", 100, some ⟨5184000, 12⟩, "income", "Employer", false⟩]

/-- The rising-payment output on `risingBatch`. -/
def risingOut : List RisingPaymentResponse :=
  [{ merchant_name := "StreamCo", category := "subscriptions",
     current_amount := 1999/100, previous_amount := 999/100,
     increase_percentage := 1001/10, increase_amount := 10,
     frequency := "monthly", confidence := 19/20,
     recommendation := PaymentAnalysisService.generate_recommendation "StreamCo"
       (100000/999) "monthly" }]

/-! ## Claim C4: output ordering and truncation -/

open AnomalyDetectionService PaymentAnalysisService in
/-- **C4.**  Every `detect_anomalies` output is non-increasing in
confidence (equivalently, in its square), and every
`detect_rising_payments` output is non-increasing in
`increase_percentage` and has at most 10 elements. -/
theorem C4_sorted_outputs (model : List Row → List (Bool × ℚ))
    (txs : List TransactionData) :
    (∀ out, detect_anomalies model txs = Except.ok out →
      out.Pairwise (fun a b => b.confidenceSq ≤ a.confidenceSq)) ∧
    (∀ out, detect_rising_payments txs = Except.ok out →
      out.Pairwise (fun a b => b.increase_percentage ≤ a.increase_percentage) ∧
        out.length ≤ 10) := by
  have hanom : ∀ l, detect_anomalies_core model txs = Except.ok l →
      l.Pairwise (fun a b => b.confidenceSq ≤ a.confidenceSq) := by
    intro l hl
    rw [detect_anomalies_core] at hl
    split at hl
    · cases hl; exact List.Pairwise.nil
    · split at hl
      · cases hl
      · cases hl
        exact sortDescBy_pairwise _ _
  have hpay : ∀ l, detect_rising_payments_core txs = Except.ok l →
      l.Pairwise (fun a b => b.increase_percentage ≤ a.increase_percentage) ∧
        l.length ≤ 10 := by
    intro l hl
    rw [detect_rising_payments_core] at hl
    split at hl
    · cases hl; exact ⟨List.Pairwise.nil, by simp⟩
    · split at hl
      · cases hl
      · cases hl
        constructor
        · exact List.Pairwise.sublist (List.take_sublist _ _) (sortDescBy_pairwise _ _)
        · exact List.length_take_le _ _
  constructor
  · intro out hout
    rw [detect_anomalies] at hout
    split at hout
    · cases hout; exact List.Pairwise.nil
    · cases hout
      exact hanom _ (by assumption)
  · intro out hout
    rw [detect_rising_payments] at hout
    split at hout
    · cases hout; exact ⟨List.Pairwise.nil, by simp⟩
    · cases hout
      exact hpay _ (by assumption)

unseal Rat.add Rat.mul Rat.sub Rat.inv Rat.ofScientific in
/-- Witness for C4 at two concrete batches with non-empty outputs. -/
theorem C4_sorted_outputs_witness :
    AnomalyDetectionService.detect_anomalies noModel wBatch = Except.ok wOut ∧
    wOut.Pairwise (fun a b => b.confidenceSq ≤ a.confidenceSq) ∧
    PaymentAnalysisService.detect_rising_payments risingBatch = Except.ok risingOut ∧
    (risingOut.Pairwise (fun a b => b.increase_percentage ≤ a.increase_percentage) ∧
      risingOut.length ≤ 10) :=
  ⟨by decide, (C4_sorted_outputs noModel wBatch).1 wOut (by decide),
   by decide, (C4_sorted_outputs noModel risingBatch).2 risingOut (by decide)⟩

/-! ## Claim C3: deduplication keeps the best finding per transaction -/

open AnomalyDetectionService in
/-- **C3.**  On any batch that reaches the detector passes, the output has
at most one finding per `transaction_id`; each retained finding is one of
the concatenated detector candidates, has the maximum confidence among the
candidates for its id, and is the **first** (in detector evaluation order)
among the candidates attaining that maximum — the tie-break induced by the
stable descending-confidence sort.  Every candidate id is represented. -/
theorem C3_deduplication (model : List Row → List (Bool × ℚ))
    (txs : List TransactionData) (df : List Row)
    (hp : prepare_data txs = Except.ok df) (hn : 10 ≤ txs.length) :
    ∃ out, detect_anomalies model txs = Except.ok out ∧
      out.Pairwise (fun a b => a.transaction_id ≠ b.transaction_id) ∧
      (∀ f ∈ out,
        f ∈ all_anomaly_candidates model df ∧
        (∀ g ∈ all_anomaly_candidates model df,
          g.transaction_id = f.transaction_id → g.confidenceSq ≤ f.confidenceSq) ∧
        ((all_anomaly_candidates model df).filter (fun g =>
            decide (g.transaction_id = f.transaction_id ∧
              g.confidenceSq = f.confidenceSq))).head? = some f) ∧
      (∀ g ∈ all_anomaly_candidates model df,
        ∃ f ∈ out, f.transaction_id = g.transaction_id) := by
  refine ⟨sortDescBy (fun a => a.confidenceSq)
    (deduplicate_anomalies (all_anomaly_candidates model df)), ?_, ?_, ?_, ?_⟩
  · rw [detect_anomalies, detect_anomalies_core, if_neg (by omega), hp]
  · refine (List.Perm.pairwise_iff (by intro x y h; exact Ne.symm h)
      (sortDescBy_perm _ _)).mpr ?_
    exact dedupeScan_pairwise _ []
  · intro f hf
    have hfd : f ∈ deduplicate_anomalies (all_anomaly_candidates model df) :=
      (sortDescBy_perm _ _).mem_iff.mp hf
    have hhead : ((sortDescBy (fun a => a.confidenceSq)
        (all_anomaly_candidates model df)).filter
          (fun g => decide (g.transaction_id = f.transaction_id))).head? = some f := by
      have h2 := (dedupeScan_mem f (sortDescBy (fun a => a.confidenceSq)
        (all_anomaly_candidates model df)) []).mp hfd
      exact h2.2
    obtain ⟨t, ht⟩ : ∃ t, (sortDescBy (fun a => a.confidenceSq)
        (all_anomaly_candidates model df)).filter
          (fun g => decide (g.transaction_id = f.transaction_id)) = f :: t := by
      rcases hx : (sortDescBy (fun a => a.confidenceSq)
          (all_anomaly_candidates model df)).filter
            (fun g => decide (g.transaction_id = f.transaction_id)) with _ | ⟨f2, t⟩
      · rw [hx] at hhead; cases hhead
      · rw [hx] at hhead
        simp only [List.head?_cons, Option.some_inj] at hhead
        rw [hhead] at hx
        exact ⟨t, hx⟩
    have hfmem_s : f ∈ sortDescBy (fun a => a.confidenceSq)
        (all_anomaly_candidates model df) := by
      have : f ∈ (sortDescBy (fun a => a.confidenceSq)
          (all_anomaly_candidates model df)).filter
            (fun g => decide (g.transaction_id = f.transaction_id)) := by
        rw [ht]; exact List.mem_cons_self f t
      exact (List.mem_filter.mp this).1
    refine ⟨(sortDescBy_perm _ _).mem_iff.mp hfmem_s, ?_, ?_⟩
    · intro g hg htid
      have hgs : g ∈ sortDescBy (fun a => a.confidenceSq)
          (all_anomaly_candidates model df) := (sortDescBy_perm _ _).mem_iff.mpr hg
      have hgf : g ∈ (sortDescBy (fun a => a.confidenceSq)
          (all_anomaly_candidates model df)).filter
            (fun g => decide (g.transaction_id = f.transaction_id)) :=
        List.mem_filter.mpr ⟨hgs, by simpa using htid⟩
      have hsorted : ((sortDescBy (fun a => a.confidenceSq)
          (all_anomaly_candidates model df)).filter
            (fun g => decide (g.transaction_id = f.transaction_id))).Pairwise
              (fun a b => b.confidenceSq ≤ a.confidenceSq) :=
        List.Pairwise.sublist (List.filter_sublist _) (sortDescBy_pairwise _ _)
      rw [ht] at hgf hsorted
      rcases List.mem_cons.mp hgf with rfl | hgt
      · exact le_refl _
      · exact (List.pairwise_cons.mp hsorted).1 g hgt
    · have hstep1 : (all_anomaly_candidates model df).filter
          (fun g => decide (g.transaction_id = f.transaction_id ∧
            g.confidenceSq = f.confidenceSq))
          = (sortDescBy (fun a => a.confidenceSq)
              (all_anomaly_candidates model df)).filter
            (fun g => decide (g.transaction_id = f.transaction_id ∧
              g.confidenceSq = f.confidenceSq)) := by
        refine (sortS_filter_eq _ _ ?_ _).symm
        intro x y hx hy
        have hx2 := of_decide_eq_true hx
        have hy2 := of_decide_eq_true hy
        simp [hx2.2, hy2.2]
      have hstep2 : (sortDescBy (fun a => a.confidenceSq)
          (all_anomaly_candidates model df)).filter
            (fun g => decide (g.transaction_id = f.transaction_id ∧
              g.confidenceSq = f.confidenceSq))
          = ((sortDescBy (fun a => a.confidenceSq)
              (all_anomaly_candidates model df)).filter
                (fun g => decide (g.transaction_id = f.transaction_id))).filter
            (fun g => decide (g.confidenceSq = f.confidenceSq)) := by
        rw [List.filter_filter]
        refine List.filter_congr ?_
        intro x _
        by_cases h1 : x.transaction_id = f.transaction_id <;>
          by_cases h2 : x.confidenceSq = f.confidenceSq <;> simp [h1, h2]
      rw [hstep1, hstep2, ht,
        List.filter_cons_of_pos (by simp)]
      rfl
  · intro g hg
    have hgs : g ∈ sortDescBy (fun a => a.confidenceSq)
        (all_anomaly_candidates model df) := (sortDescBy_perm _ _).mem_iff.mpr hg
    obtain ⟨f, hfd, hfid⟩ := dedupeScan_covers g _ hgs
    exact ⟨f, (sortDescBy_perm _ _).mem_iff.mpr hfd, hfid⟩

/-- The normalized rows of `wBatch`. -/
def wdf : List AnomalyDetectionService.Row :=
  match AnomalyDetectionService.prepare_data wBatch with
  | Except.ok df => df
  | Except.error _ => []

unseal Rat.add Rat.mul Rat.sub Rat.inv Rat.ofScientific in
/-- Witness for C3 at the concrete batch `wBatch`. -/
theorem C3_deduplication_witness :
    AnomalyDetectionService.prepare_data wBatch = Except.ok wdf ∧
    10 ≤ wBatch.length ∧
    ∃ out, AnomalyDetectionService.detect_anomalies noModel wBatch = Except.ok out ∧
      out.Pairwise (fun a b => a.transaction_id ≠ b.transaction_id) ∧
      (∀ f ∈ out,
        f ∈ AnomalyDetectionService.all_anomaly_candidates noModel wdf ∧
        (∀ g ∈ AnomalyDetectionService.all_anomaly_candidates noModel wdf,
          g.transaction_id = f.transaction_id → g.confidenceSq ≤ f.confidenceSq) ∧
        ((AnomalyDetectionService.all_anomaly_candidates noModel wdf).filter (fun g =>
            decide (g.transaction_id = f.transaction_id ∧
              g.confidenceSq = f.confidenceSq))).head? = some f) ∧
      (∀ g ∈ AnomalyDetectionService.all_anomaly_candidates noModel wdf,
        ∃ f ∈ out, f.transaction_id = g.transaction_id) :=
  ⟨by decide, by decide, C3_deduplication noModel wBatch wdf (by decide) (by decide)⟩

/-! ## Claim C5: numerically degenerate cases short-circuit -/

open AnomalyDetectionService PaymentAnalysisService in
/-- **C5.**  (a) With zero population variance of the absolute amounts the
global z-score pass emits nothing (the `NaN` z-scores compare false).
(b) A merchant group whose first date-sorted amount is 0 is never emitted:
the percentage guard maps the would-be division by zero to 0%, which the
5% gate discards (and every earlier guard also returns `none`). -/
theorem C5_degenerate_guards (df : List Row) (m : String) (g : List PayRow)
    (hvar : popVar (df.map (fun r => r.amount)) = 0)
    (hfirst : ((sortAscBy (fun r => r.date) g).map (fun r => r.amount)).head? = some 0) :
    global_amount_anomalies df = [] ∧ analyze_merchant_payments m g = none := by
  constructor
  · rw [global_amount_anomalies, List.filterMap_eq_nil_iff]
    intro p hp
    have h3 := (List.of_mem_zip hp).2
    simp only [zscoreSq, hvar, if_pos, List.mem_map] at h3
    obtain ⟨a, -, ha⟩ := h3
    rw [← ha]
  · simp only [analyze_merchant_payments]
    split
    · rfl
    · split
      · rfl
      · split
        · rfl
        · have holder : ((sortAscBy (fun r => r.date) g).map
              (fun r => r.amount)).head?.getD 0 = 0 := by rw [hfirst]; rfl
          rw [holder, if_neg (lt_irrefl (0 : ℚ)), if_pos (by norm_num)]

/-- Concrete rows with zero amount variance. -/
def zdf : List AnomalyDetectionService.Row :=
  [⟨"z0", 0, 50, "c", "m", false, 10⟩, ⟨"z1", 86400, 50, "c", "m", false, 10⟩,
   ⟨"z2", 172800, 50, "c", "m", false, 10⟩]

/-- A concrete recurring merchant group whose first amount is 0. -/
def zGroup : List PaymentAnalysisService.PayRow :=
  [⟨0, 0, "m", "c", false⟩, ⟨2592000, 5, "m", "c", false⟩, ⟨5184000, 10, "m", "c", false⟩]

unseal Rat.add Rat.mul Rat.sub Rat.inv Rat.ofScientific in
/-- Witness for C5; `zGroup` passes the recurring and slope gates and dies
exactly at the 5% gate. -/
theorem C5_degenerate_guards_witness :
    popVar (zdf.map (fun r => r.amount)) = 0 ∧
    ((sortAscBy (fun r => r.date) zGroup).map (fun r => r.amount)).head? = some 0 ∧
    PaymentAnalysisService.is_recurring_pattern
      (sortAscBy (fun r => r.date) zGroup) = true ∧
    1/2 < olsSlope ((sortAscBy (fun r => r.date) zGroup).map (fun r => r.amount)) ∧
    (AnomalyDetectionService.global_amount_anomalies zdf = [] ∧
      PaymentAnalysisService.analyze_merchant_payments "m" zGroup = none) :=
  ⟨by decide, by decide, by decide, by decide,
   C5_degenerate_guards zdf "m" zGroup (by decide) (by decide)⟩

/-! ## Claim C6: the burst rule reports exactly the first qualifying window -/

open AnomalyDetectionService in
/-- **C6.**  If window `i` over the time-sorted records is the first whose
span is at most one hour, then the `UNUSUAL_FREQUENCY` findings of the
temporal pass are exactly one finding per record of that window — severity
high, confidence 0.80 — and no other record is flagged (scanning stops
after the first qualifying window). -/
theorem C6_first_burst_window (df : List Row) (i : ℕ)
    (h1 : burstAt (sortAscBy (fun r => r.date) df) i = true)
    (h0 : ∀ j, j < i → burstAt (sortAscBy (fun r => r.date) df) j = false) :
    (temporal_anomalies df).filter
        (fun f => decide (f.anomaly_type = AnomalyType.unusual_frequency))
      = (burstWindow (sortAscBy (fun r => r.date) df) i).map mkFreqFinding ∧
    ∀ r ∈ burstWindow (sortAscBy (fun r => r.date) df) i,
      mkFreqFinding r ∈ (temporal_anomalies df).filter
        (fun f => decide (f.anomaly_type = AnomalyType.unusual_frequency)) ∧
      (mkFreqFinding r).severity = "high" ∧
      (mkFreqFinding r).confidenceSq = (0.80 : ℚ) ^ 2 := by
  have hmain : (temporal_anomalies df).filter
      (fun f => decide (f.anomaly_type = AnomalyType.unusual_frequency))
      = (burstWindow (sortAscBy (fun r => r.date) df) i).map mkFreqFinding := by
    rw [temporal_filter_freq, burstScan_first i _ h1 h0]
  refine ⟨hmain, ?_⟩
  intro r hr
  exact ⟨by rw [hmain]; exact List.mem_map_of_mem mkFreqFinding hr, rfl, rfl⟩

/-- The spec §8 burst scenario: 5 records within a 40-minute span, a 6th
record 2 hours later. -/
def c6df : List AnomalyDetectionService.Row :=
  [⟨"b0", 0, 20, "c", "m0", false, 12⟩,
   ⟨"b1", 600, 20, "c", "m1", false, 12⟩,
   ⟨"b2", 1200, 20, "c", "m2", false, 12⟩,
   ⟨"b3", 1800, 20, "c", "m3", false, 12⟩,
   ⟨"b4", 2400, 20, "c", "m4", false, 12⟩,
   ⟨"b5", 9600, 20, "c", "m5", false, 12⟩]

unseal Rat.add Rat.mul Rat.sub Rat.inv Rat.ofScientific in
/-- Witness for C6 at the spec scenario: all five burst records are
flagged with severity high and confidence 0.80, and the later record `b5`
is not flagged. -/
theorem C6_first_burst_window_witness :
    AnomalyDetectionService.burstAt
      (sortAscBy (fun r => r.date) c6df) 0 = true ∧
    (∀ j, j < 0 → AnomalyDetectionService.burstAt
      (sortAscBy (fun r => r.date) c6df) j = false) ∧
    (AnomalyDetectionService.temporal_anomalies c6df).filter
        (fun f => decide (f.anomaly_type = AnomalyType.unusual_frequency))
      = (AnomalyDetectionService.burstWindow
          (sortAscBy (fun r => r.date) c6df) 0).map
            AnomalyDetectionService.mkFreqFinding ∧
    ((AnomalyDetectionService.temporal_anomalies c6df).filter
        (fun f => decide (f.anomaly_type = AnomalyType.unusual_frequency))).map
      (fun f => f.transaction_id) = ["b0", "b1", "b2", "b3", "b4"] ∧
    ∀ f ∈ (AnomalyDetectionService.temporal_anomalies c6df).filter
        (fun f => decide (f.anomaly_type = AnomalyType.unusual_frequency)),
      f.transaction_id ≠ "b5" ∧ f.severity = "high" ∧ f.confidenceSq = (0.80 : ℚ) ^ 2 :=
  ⟨by decide, by decide,
   (C6_first_burst_window c6df 0 (by decide) (by decide)).1,
   by decide, by decide⟩

/-! ## Properties of first-occurrence deduplication and keyed lookup -/

theorem mem_uniqueFirstAux {α : Type} [DecidableEq α] (x : α) :
    ∀ (l seen : List α), x ∈ uniqueFirstAux l seen ↔ x ∈ l ∧ x ∉ seen := by
  intro l
  induction l with
  | nil => intro seen; simp [uniqueFirstAux]
  | cons a l ih =>
    intro seen
    rw [uniqueFirstAux]
    by_cases ha : a ∈ seen
    · rw [if_pos ha, ih seen]
      constructor
      · rintro ⟨hx, hns⟩; exact ⟨List.mem_cons_of_mem a hx, hns⟩
      · rintro ⟨hx, hns⟩
        rcases List.mem_cons.mp hx with rfl | hx
        · exact absurd ha hns
        · exact ⟨hx, hns⟩
    · rw [if_neg ha]
      constructor
      · intro hx
        rcases List.mem_cons.mp hx with rfl | hx
        · exact ⟨List.mem_cons_self x l, ha⟩
        · have h2 := (ih (a :: seen)).mp hx
          exact ⟨List.mem_cons_of_mem a h2.1,
            fun hmem => h2.2 (List.mem_cons_of_mem a hmem)⟩
      · rintro ⟨hx, hns⟩
        rcases List.mem_cons.mp hx with rfl | hx
        · exact List.mem_cons_self x _
        · by_cases hxa : x = a
          · exact hxa ▸ List.mem_cons_self a _
          · exact List.mem_cons_of_mem a ((ih (a :: seen)).mpr
              ⟨hx, fun hmem => (List.mem_cons.mp hmem).elim hxa hns⟩)

theorem uniqueFirstAux_nodup {α : Type} [DecidableEq α] :
    ∀ (l seen : List α), (uniqueFirstAux l seen).Nodup := by
  intro l
  induction l with
  | nil => intro seen; simp [uniqueFirstAux]
  | cons a l ih =>
    intro seen
    rw [uniqueFirstAux]
    by_cases ha : a ∈ seen
    · rw [if_pos ha]; exact ih seen
    · rw [if_neg ha]
      refine List.nodup_cons.mpr ⟨?_, ih (a :: seen)⟩
      intro hmem
      exact ((mem_uniqueFirstAux a l (a :: seen)).mp hmem).2 (List.mem_cons_self a seen)

theorem mem_uniqueFirst {α : Type} [DecidableEq α] (x : α) (l : List α) :
    x ∈ uniqueFirst l ↔ x ∈ l := by
  rw [uniqueFirst, mem_uniqueFirstAux]
  simp

theorem uniqueFirst_nodup {α : Type} [DecidableEq α] (l : List α) :
    (uniqueFirst l).Nodup :=
  uniqueFirstAux_nodup l []

/-- Looking up a key in an association list built over distinct keys with a
guard: the entry is found exactly when the key occurs and passes the
guard. -/
theorem lookup_filterMap_guard {β : Type} (ms : List String) (hnd : ms.Nodup)
    (p : String → Prop) [DecidablePred p] (f : String → β) (m : String) :
    (ms.filterMap (fun x => if p x then some (x, f x) else none)).lookup m
      = if m ∈ ms ∧ p m then some (f m) else none := by
  induction ms with
  | nil => simp
  | cons a ms ih =>
    rcases List.nodup_cons.mp hnd with ⟨ha, hnd2⟩
    rw [List.filterMap_cons]
    by_cases hpa : p a
    · rw [if_pos hpa, List.lookup_cons]
      by_cases hma : m = a
      · subst hma
        simp [hpa]
      · rw [beq_false_of_ne hma]
        rw [ih hnd2]
        simp [hma]
    · rw [if_neg hpa, ih hnd2]
      by_cases hma : m = a
      · subst hma
        simp [hpa]
      · simp [hma]

/-! ## Claim C9: what merchant profiles are actually keyed by -/

open AnomalyDetectionService in
/-- **C9, amended.**  Merchant profiles are keyed by the **raw** merchant
name under exact string equality: looking up a record's merchant returns
the profile computed from precisely the records whose raw `merchant_name`
equals it (when at least 2 such records exist), so names differing in case
or surrounding whitespace contribute to distinct profiles. -/
theorem C9_amended_profiles_keyed_by_raw_name (df : List Row) (m : String) :
    (merchant_profiles df).lookup m
      = if 2 ≤ (df.filter (fun r => decide (r.merchant = m))).length then
          some (profileOfGroup (df.filter (fun r => decide (r.merchant = m))))
        else none := by
  rw [merchant_profiles]
  rw [lookup_filterMap_guard (uniqueFirst (df.map (fun r => r.merchant)))
    (uniqueFirst_nodup _)
    (fun x => 2 ≤ (df.filter (fun r => decide (r.merchant = x))).length)
    (fun x => profileOfGroup (df.filter (fun r => decide (r.merchant = x)))) m]
  by_cases hp : 2 ≤ (df.filter (fun r => decide (r.merchant = m))).length
  · have hmem : m ∈ uniqueFirst (df.map (fun r => r.merchant)) := by
      rw [mem_uniqueFirst]
      obtain ⟨r, hr⟩ : ∃ r, r ∈ df.filter (fun r => decide (r.merchant = m)) := by
        rcases hx : df.filter (fun r => decide (r.merchant = m)) with _ | ⟨r, t⟩
        · rw [hx] at hp; simp at hp
        · exact ⟨r, by rw [hx]; exact List.mem_cons_self r t⟩
      have h2 := List.mem_filter.mp hr
      have h3 : r.merchant = m := by simpa using h2.2
      exact h3 ▸ List.mem_map_of_mem (fun r => r.merchant) h2.1
    rw [if_pos ⟨hmem, hp⟩, if_pos hp]
  · rw [if_neg (fun h => hp h.2), if_neg hp]

/-- Five records of merchant `"Netflix"` with equal amounts plus one
outlier record of merchant `"NETFLIX"`. -/
def c9df : List AnomalyDetectionService.Row :=
  [⟨"n0", 0, 10, "ent", "Netflix", true, 12⟩,
   ⟨"n1", 86400, 10, "ent", "Netflix", true, 12⟩,
   ⟨"n2", 172800, 10, "ent", "Netflix", true, 12⟩,
   ⟨"n3", 259200, 10, "ent", "Netflix", true, 12⟩,
   ⟨"n4", 345600, 10, "ent", "Netflix", true, 12⟩,
   ⟨"nBig", 432000, 1000, "ent", "NETFLIX", true, 12⟩]

/-- `c9df` with every merchant name replaced by its lowercase-trimmed
canonical form — the keying the spec asserts. -/
def c9canonDf : List AnomalyDetectionService.Row :=
  c9df.map (fun r => { r with merchant := canonMerchantName r.merchant })

unseal Rat.add Rat.mul Rat.sub Rat.inv Rat.ofScientific in
/-- **C9, counterexample.**  `"Netflix"` and `"NETFLIX"` are equal after
lowercase-trimming, yet the source keys them separately: the `"NETFLIX"`
record has no profile at all (count 1), the pass emits nothing — whereas
under the spec's lowercase-trimmed keying the merged profile flags the
outlier record.  The records do not contribute to, nor are checked
against, one shared profile. -/
theorem C9_counterexample :
    canonMerchantName "NETFLIX" = canonMerchantName "Netflix" ∧
    "NETFLIX" ≠ "Netflix" ∧
    (∃ r ∈ c9df, r.merchant = "Netflix") ∧
    (∃ r ∈ c9df, r.merchant = "NETFLIX") ∧
    (AnomalyDetectionService.merchant_profiles c9df).lookup "NETFLIX" = none ∧
    ((AnomalyDetectionService.merchant_profiles c9df).lookup "Netflix").isSome = true ∧
    AnomalyDetectionService.merchant_anomalies c9df = [] ∧
    AnomalyDetectionService.merchant_anomalies c9canonDf
      = [⟨"nBig", AnomalyType.unusual_amount, "low", 25/54, some 175, 1000⟩] := by
  decide

/-! ## Claim C7: the monthly rising-payment scenario -/

/-- The `StreamCo` group of `risingBatch` as the groupby produces it. -/
def sGroup : List PaymentAnalysisService.PayRow :=
  match PaymentAnalysisService.prepare_data risingBatch with
  | Except.ok df => df.filter (fun r => decide (r.merchant = "StreamCo"))
  | Except.error _ => []

unseal Rat.add Rat.mul Rat.sub Rat.inv Rat.ofScientific in
/-- **C7, counterexample.**  For the charged amounts 9.99 (×6) then 19.99,
the increase is `10/9.99 = 100.1001…%`, rounded to `100.1` — not exactly
`100` as the claim states. -/
theorem C7_counterexample :
    PaymentAnalysisService.detect_rising_payments risingBatch = Except.ok risingOut ∧
    risingOut.map (fun r => r.increase_percentage) = [1001/10] ∧
    (1001 : ℚ)/10 ≠ 100 := by
  decide

unseal Rat.add Rat.mul Rat.sub Rat.inv Rat.ofScientific in
/-- **C7, amended.**  The scenario merchant is classified recurring (every
gap is 30 days, so the monthly-override share is 100% ≥ 70%, and rule (i)
holds as well), the OLS slope is `15/14 > 0.5`, the increase is `100.1%`
(`≥ 5`), and the merchant is emitted with frequency `"monthly"` and
confidence `0.95 ≤ 0.95`. -/
theorem C7_amended_monthly_scenario :
    PaymentAnalysisService.detect_rising_payments risingBatch = Except.ok risingOut ∧
    risingOut.map (fun r => r.frequency) = ["monthly"] ∧
    risingOut.map (fun r => r.confidence) = [19/20] ∧
    (∀ r ∈ risingOut, r.confidence ≤ 19/20) ∧
    risingOut.map (fun r => r.increase_percentage) = [1001/10] ∧
    (∀ r ∈ risingOut, 5 ≤ r.increase_percentage) ∧
    PaymentAnalysisService.is_recurring_pattern sGroup = true ∧
    ((PaymentAnalysisService.dayGaps (sGroup.map (fun r => r.date))).filter
        (fun i => 25 ≤ i ∧ i ≤ 35)).length
      = (PaymentAnalysisService.dayGaps (sGroup.map (fun r => r.date))).length ∧
    (PaymentAnalysisService.dayGaps (sGroup.map (fun r => r.date))).length = 6 ∧
    olsSlope (sGroup.map (fun r => r.amount)) = 15/14 ∧
    (1 : ℚ)/2 < 15/14 := by
  decide

/-! ## Claim C8: the −5000 outlier scenario -/

/-- The spec §8 statistical scenario: 11 transactions of −50 and one of
−5000, in distinct categories. -/
def c8Batch : List TransactionData :=
  [⟨"t0", -50, some ⟨0, 12⟩, "c0", "m0", false⟩,
   ⟨"t1", -50, some ⟨86400, 12⟩, "c1", "m1", false⟩,
   ⟨"t2", -50, some ⟨172800, 12⟩, "c2", "m2", false⟩,
   ⟨"t3", -50, some ⟨259200, 12⟩, "c3", "m3", false⟩,
   ⟨"t4", -50, some ⟨345600, 12⟩, "c4", "m4", false⟩,
   ⟨"t5", -50, some ⟨432000, 12⟩, "c5", "m5", false⟩,
   ⟨"t6", -50, some ⟨518400, 12⟩, "c6", "m6", false⟩,
   ⟨"t7", -50, some ⟨604800, 12⟩, "c7", "m7", false⟩,
   ⟨"t8", -50, some ⟨691200, 12⟩, "c8", "m8", false⟩,
   ⟨"t9", -50, some ⟨777600, 12⟩, "c9", "m9", false⟩,
   ⟨"t10", -50, some ⟨864000, 12⟩, "c10", "m10", false⟩,
   ⟨"t11", -5000, some ⟨950400, 12⟩, "c11", "m11", false⟩]

/-- The normalized rows of `c8Batch`. -/
def c8df : List AnomalyDetectionService.Row :=
  match AnomalyDetectionService.prepare_data c8Batch with
  | Except.ok df => df
  | Except.error _ => []

unseal Rat.add Rat.mul Rat.sub Rat.inv Rat.ofScientific in
/-- **C8, counterexample.**  The global z-score pass flags the −5000
transaction — but with severity `"low"`, not `"high"`: its z-score is
`√11 ≈ 3.32`, above the 3.0 threshold yet far below the `high` bar of
`2 × 3.0 = 6` (indeed `√11` is the largest z-score any of 12 records can
attain). -/
theorem C8_counterexample :
    AnomalyDetectionService.prepare_data c8Batch = Except.ok c8df ∧
    AnomalyDetectionService.global_amount_anomalies c8df
      = [⟨"t11", AnomalyType.unusual_amount, "low", 11/25, some (925/2), 5000⟩] ∧
    (∀ f ∈ AnomalyDetectionService.global_amount_anomalies c8df,
      f.severity = "low" ∧ f.severity ≠ "high") := by
  decide

unseal Rat.add Rat.mul Rat.sub Rat.inv Rat.ofScientific in
/-- **C8, amended.**  On the scenario batch the global pass emits exactly
one finding: `UNUSUAL_AMOUNT` for the −5000 transaction with severity
`"low"` (its squared z-score is exactly 11: `√11 > 3` but
`√11 ≤ 1.5 × 3 < 2 × 3`), confidence `√11/5` (squared: `11/25`). -/
theorem C8_amended_low_severity :
    AnomalyDetectionService.global_amount_anomalies c8df
      = [⟨"t11", AnomalyType.unusual_amount, "low", 11/25, some (925/2), 5000⟩] ∧
    (11 : ℚ) = (5000 - 925/2) ^ 2 / popVar (c8df.map (fun r => r.amount)) ∧
    sqrtGtB 11 3 = true ∧
    sqrtGtB 11 (3 * (3/2)) = false ∧
    sqrtGtB 11 (3 * 2) = false ∧
    AnomalyDetectionService.calculate_severity 11 3 = "low" := by
  decide
